import Mathlib

/-!
Shallow embedding of the "Prompt Engineering Challenges" browser application
(React + TypeScript) and proofs about it.

The embedding covers:
* the challenge data model (`types.ts`, `constants.ts`);
* the progress-update logic of `handleGenerate`, the load-time index
  computation and the local-storage persistence effect (`App.tsx`);
* `generateImage` and `analyzeImages` (`services/ApiService.ts`);
* the WAV container assembly (`services/ttsService.ts`);
* the credential store (`services/authService.ts`);
* the deterministic seed hash (`services/analysisService.ts`).

External effects (HTTP fetch, the Gemini SDK, `atob`/`btoa`, the DOM) are
modelled as explicit parameters or outcome values; JavaScript numbers are
modelled as rationals (`Rat`), 32-bit wrap-around where the code forces it
(`|0`, `DataView.setUint32`) is modelled with explicit `% 2^32` arithmetic.
-/

namespace PEC

/-! ## Data model (`types.ts`, `constants.ts`) -/

/-- Challenge lifecycle status, from `enum ChallengeStatus` in `types.ts`. -/
inductive ChallengeStatus where
  | LOCKED
  | UNLOCKED
  | COMPLETED
deriving DecidableEq, Repr

/-- Per-challenge progress entry, from `interface ChallengeProgress`.
JavaScript numbers are modelled as rationals. -/
structure ChallengeProgress where
  status : ChallengeStatus
  streak : Rat
  previousSimilarityScore : Rat
deriving DecidableEq, Repr

/-- Challenge description, from `interface Challenge` in `types.ts`. -/
structure Challenge where
  id : Nat
  name : String
  imageUrl : String
  description : String
deriving DecidableEq, Repr

/-- Passing score threshold, from `constants.ts`. -/
def PASS_THRESHOLD : Rat := 80

/-- The fixed challenge sequence, from `constants.ts`. -/
def CHALLENGES : List Challenge :=
  [ { id := 1, name := "Simple Shape",
      imageUrl := "./public/challenges/challenge-1.png",
      description := "Generate a simple image of a single, centered object. Focus on the color and shape." },
    { id := 2, name := "Object with Background",
      imageUrl := "./public/challenges/challenge-2.png",
      description := "Describe an object and its immediate surroundings. Pay attention to textures and lighting." },
    { id := 3, name := "Detailed Scene",
      imageUrl := "./public/challenges/challenge-3.png",
      description := "Create a scene with multiple elements. Describe their relationships and the overall atmosphere." },
    { id := 4, name := "Abstract Concept",
      imageUrl := "./public/challenges/challenge-4.png",
      description := "Generate an image that represents a feeling or idea. Use metaphorical language." },
    { id := 5, name := "Specific Art Style",
      imageUrl := "./public/challenges/challenge-5.png",
      description := "Recreate an image in a specific artistic style, like 'impressionist painting' or 'cyberpunk art'." },
    { id := 6, name := "Complex Composition",
      imageUrl := "./public/challenges/challenge-6.png",
      description := "A final test. Describe a complex scene with intricate details, specific lighting, and a distinct mood." } ]

/-- User record, from `interface User` (an email wrapper). -/
structure User where
  email : String
deriving DecidableEq, Repr

/-! ## Credential store (`services/authService.ts`)

The `pec_users` record in local storage maps an email to a password.  We model
it as an association list; `usersGet` is the JavaScript property read
`users[email]` and `usersSet` the property write `users[email] = password`.
JavaScript branches on the *truthiness* of `users[email]`: both `undefined`
(email absent) and the empty string are falsy, which `truthy` captures. -/

namespace AuthService

/-- The stored user record: email/password pairs, no duplicate emails. -/
abbrev Users := List (String × String)

/-- Property read `users[email]`. -/
def usersGet : Users → String → Option String
  | [], _ => Option.none
  | (k, v) :: rest, email => if k = email then some v else usersGet rest email

/-- Property write `users[email] = password` (replace or append). -/
def usersSet : Users → String → String → Users
  | [], email, password => [(email, password)]
  | (k, v) :: rest, email, password =>
    if k = email then (k, password) :: rest
    else (k, v) :: usersSet rest email password

/-- JavaScript truthiness of `users[email]`: `undefined` and `""` are falsy. -/
def truthy : Option String → Bool
  | none => false
  | some s => s != ""

/-- The `login` function of `authService.ts`, with the stored record made
explicit.  Mirrors: `if (!users[email]) throw 'User not found...'`;
`if (users[email] !== password) throw 'Incorrect password.'`; else the user. -/
def login (users : Users) (email password : String) : Except String User :=
  if ¬ truthy (usersGet users email) then
    .error "User not found. Please sign up first."
  else if usersGet users email ≠ some password then
    .error "Incorrect password."
  else
    .ok { email := email }

/-- The `signup` function of `authService.ts`, returning the user together
with the updated stored record.  Mirrors: `if (users[email]) throw
'Email already exists.'`; else store and return. -/
def signup (users : Users) (email password : String) :
    Except String (User × Users) :=
  if truthy (usersGet users email) then
    .error "Email already exists."
  else
    .ok ({ email := email }, usersSet users email password)

end AuthService

/-! ## Deterministic seed hash (`services/analysisService.ts`)

`getSeedFromString` folds `hash = ((hash << 5) - hash) + charCode; hash |= 0`
over the characters and returns `Math.abs(hash)`.  `|0` is `ToInt32`:
wrap-around into `[-2^31, 2^31)`. -/

namespace AnalysisService

/-- JavaScript `ToInt32`: wrap an integer into `[-2^31, 2^31)`. -/
def toInt32 (n : Int) : Int :=
  (n + 2 ^ 31) % 2 ^ 32 - 2 ^ 31

/-- One iteration of the hash loop: `hash = ((hash << 5) - hash) + char`
followed by `hash |= 0`.  `hash << 5` is itself a 32-bit operation. -/
def hashStep (hash : Int) (charCode : Nat) : Int :=
  toInt32 (toInt32 (hash * 32) - hash + charCode)

/-- The `getSeedFromString` helper: 0 on the empty string, otherwise the
absolute value of the folded 32-bit hash. -/
def getSeedFromString (input : String) : Int :=
  if input.length = 0 then 0
  else |(input.toList.map Char.toNat).foldl hashStep 0|

/-- The seed content string built in `analyzeImages`:
the template literal `${challenge.imageUrl}-${generatedImageBase64.substring(0, 256)}`. -/
def seedContent (imageUrl generatedImageBase64 : String) : String :=
  imageUrl ++ "-" ++ generatedImageBase64.take 256

/-- The seed passed to the analysis call in `analyzeImages`. -/
def analysisSeed (imageUrl generatedImageBase64 : String) : Int :=
  getSeedFromString (seedContent imageUrl generatedImageBase64)

end AnalysisService

/-! ## The `App` component state and `handleGenerate` (`App.tsx`)

React state is collected into one record; the `set...` calls of
`handleGenerate` become functional updates, executed in source order.  The
two awaited service calls are passed in as outcomes (`Except`): `.ok` for a
resolved promise, `.error msg` for a rejection.  JavaScript property reads on
the `Record<number, ChallengeProgress>` object are `Option`-valued; reading a
property of `undefined` throws a `TypeError`, which the surrounding
`try`/`catch` turns into an error message like any other exception. -/

namespace AppModel

/-- The analysis result shape used by `App.tsx` and `services/ApiService.ts`. -/
structure AnalysisResult where
  similarityScore : Rat
  feedback : List String
deriving DecidableEq, Repr

/-- The `streakChange` state value: `'increase' | 'decrease' | 'none'`. -/
inductive StreakChange where
  | increase
  | decrease
  | none
deriving DecidableEq, Repr

/-- The challenge-progress record, modelled as a partial map from challenge
id to progress entry (`challengeProgress[id]` is `undefined` off-record). -/
abbrev ProgressFn := Nat → Option ChallengeProgress

/-- The slice of `App` component state that `handleGenerate` touches. -/
structure AppState where
  challengeProgress : ProgressFn
  currentChallengeIndex : Nat
  prompt : String
  generatedImage : Option String
  analysisResult : Option AnalysisResult
  isLoading : Bool
  loadingMessage : String
  error : Option String
  streakChange : StreakChange

/-- Message of the `TypeError` thrown by a property read on `undefined`. -/
def typeErrorMsg : String := "Cannot read properties of undefined"

/-- The `newStreak` computation of `handleGenerate`: `streak + 1` on a strict
improvement, `Math.max(0, streak - 2)` on a strict regression, unchanged on a
tie. -/
def newStreakOf (p : ChallengeProgress) (score : Rat) : Rat :=
  if p.previousSimilarityScore < score then p.streak + 1
  else if score < p.previousSimilarityScore then max 0 (p.streak - 2)
  else p.streak

/-- The `setStreakChange` argument chosen alongside `newStreakOf`. -/
def streakChangeOf (p : ChallengeProgress) (score : Rat) : StreakChange :=
  if p.previousSimilarityScore < score then StreakChange.increase
  else if score < p.previousSimilarityScore then StreakChange.decrease
  else StreakChange.none

/-- The entry written for the current challenge (streak and previous-score
update), before any status change. -/
def tickedEntry (p : ChallengeProgress) (score : Rat) : ChallengeProgress :=
  { p with streak := newStreakOf p score, previousSimilarityScore := score }

/-- The entry written for the current challenge when the run newly passes. -/
def passedEntry (p : ChallengeProgress) (score : Rat) : ChallengeProgress :=
  { tickedEntry p score with status := ChallengeStatus.COMPLETED }

/-- The body of the `try` block of `handleGenerate`, in source order.
Returns the state as mutated so far together with the thrown error message,
if any. -/
def handleGenerateTry (s : AppState) (gen : Except String String)
    (ana : Except String AnalysisResult) : AppState × Option String :=
  let s := { s with loadingMessage := "Generating image..." }
  match gen with
  | .error msg => (s, some msg)
  | .ok generatedImageBase64 =>
    let s := { s with
      generatedImage := some ("data:image/jpeg;base64," ++ generatedImageBase64),
      loadingMessage := "Analyzing results..." }
    match ana with
    | .error msg => (s, some msg)
    | .ok result =>
      let s := { s with analysisResult := some result }
      let isPassed := PASS_THRESHOLD ≤ result.similarityScore
      match CHALLENGES[s.currentChallengeIndex]? with
      | Option.none => (s, some typeErrorMsg)
      | some currentChallenge =>
        match s.challengeProgress currentChallenge.id with
        | Option.none => (s, some typeErrorMsg)
        | some currentProgress =>
          let s := { s with
            streakChange := streakChangeOf currentProgress result.similarityScore }
          let entry := tickedEntry currentProgress result.similarityScore
          if isPassed ∧ entry.status ≠ ChallengeStatus.COMPLETED then
            let entry := { entry with status := ChallengeStatus.COMPLETED }
            let updatedProgress : ProgressFn :=
              Function.update s.challengeProgress currentChallenge.id (some entry)
            match CHALLENGES[s.currentChallengeIndex + 1]? with
            | Option.none =>
              ({ s with challengeProgress := updatedProgress }, Option.none)
            | some nextChallenge =>
              match updatedProgress nextChallenge.id with
              | Option.none => (s, some typeErrorMsg)
              | some nextProgress =>
                let updatedProgress : ProgressFn :=
                  if nextProgress.status = ChallengeStatus.LOCKED then
                    Function.update updatedProgress nextChallenge.id
                      (some { nextProgress with status := ChallengeStatus.UNLOCKED })
                  else updatedProgress
                ({ s with challengeProgress := updatedProgress }, Option.none)
          else
            let updatedProgress : ProgressFn :=
              Function.update s.challengeProgress currentChallenge.id (some entry)
            ({ s with challengeProgress := updatedProgress }, Option.none)

/-- The full `handleGenerate` callback: the four resets, the `try` body, the
`catch` clause setting the error message, and the `finally` clause clearing
the loading state. -/
def handleGenerate (s : AppState) (gen : Except String String)
    (ana : Except String AnalysisResult) : AppState :=
  let s := { s with
    isLoading := true, generatedImage := Option.none,
    analysisResult := Option.none, error := Option.none }
  let r := handleGenerateTry s gen ana
  let s :=
    match r.2 with
    | some msg => { r.1 with error := some msg }
    | Option.none => r.1
  { s with isLoading := false, loadingMessage := "" }

/-! ### Saved progress records and the load-time index (`App.tsx`)

A saved record is a JavaScript object keyed by challenge id; objects
enumerate integer-like keys in ascending order, so the record is an
association list in ascending key order.  The mount effect computes the
current challenge index from `Object.values(progress)`; `handleFileLoad`
computes it from `CHALLENGES.map(c => newProgress[c.id]?.status)`. -/

/-- A saved progress record: challenge-id keys (in ascending order, as
JavaScript enumerates them) with their progress entries. -/
abbrev ProgressRecord := List (Nat × ChallengeProgress)

/-- Property read `progress[id]` on a saved record. -/
def lookupProgress : ProgressRecord → Nat → Option ChallengeProgress
  | [], _ => Option.none
  | (k, v) :: rest, id => if k = id then some v else lookupProgress rest id

/-- JavaScript `Array.prototype.lastIndexOf`: the largest index holding the
value, `-1` when the value does not occur. -/
def lastIndexOf [DecidableEq α] : List α → α → Int
  | [], _ => -1
  | x :: rest, a =>
    let r := lastIndexOf rest a
    if 0 ≤ r then r + 1
    else if x = a then 0 else -1

/-- The shared index selection of both loaders:
`nextChallenge < CHALLENGES.length ? nextChallenge : lastCompleted > -1 ? lastCompleted : 0`. -/
def selectIndex (lastCompleted : Int) : Int :=
  if lastCompleted + 1 < (CHALLENGES.length : Int) then lastCompleted + 1
  else if lastCompleted > -1 then lastCompleted
  else 0

/-- `Object.values(progress).map(p => p.status)` as the mount effect sees
it: the record's values in ascending key order. -/
def mountStatuses (progress : ProgressRecord) : List ChallengeStatus :=
  progress.map (fun kv => kv.2.status)

/-- The current-challenge index the mount effect computes from a saved
record. -/
def mountIndex (progress : ProgressRecord) : Int :=
  selectIndex (lastIndexOf (mountStatuses progress) ChallengeStatus.COMPLETED)

/-- The per-challenge status list `handleFileLoad` builds:
`CHALLENGES.map(c => newProgress[c.id]?.status)`. -/
def fileLoadStatuses (progress : ProgressRecord) : List (Option ChallengeStatus) :=
  CHALLENGES.map (fun c => (lookupProgress progress c.id).map ChallengeProgress.status)

/-- The current-challenge index `handleFileLoad` computes. -/
def fileLoadIndex (progress : ProgressRecord) : Int :=
  selectIndex (lastIndexOf (fileLoadStatuses progress) (some ChallengeStatus.COMPLETED))

/-- Modelled from the claim's words, for comparison with the code-side
index computations: the index immediately after the last challenge of the
fixed sequence whose status is COMPLETED when that index is still in the
sequence, otherwise the index of the last COMPLETED challenge when at least
one exists, otherwise 0. -/
def specLoadIndex (statuses : List (Option ChallengeStatus)) : Int :=
  match ((List.range statuses.length).filter
      (fun i => statuses.getD i Option.none = some ChallengeStatus.COMPLETED)).getLast? with
  | some lc => if (lc : Int) + 1 < (CHALLENGES.length : Int) then (lc : Int) + 1 else (lc : Int)
  | Option.none => 0

/-! ### Local-storage persistence of the progress record (`App.tsx`)

The serializer (`JSON.stringify`) is external and passed in as a parameter.
Each `setChallengeProgress` call is followed by the `useEffect` on
`[challengeProgress]`, which persists the record when it is non-empty;
`handleFileLoad` additionally calls `localStorage.setItem` directly,
with no emptiness guard. -/

/-- State of the persistence machine: the in-memory record, the string
stored under 'prompt-challenge-progress', and whether a serialization of an
empty record has ever been written. -/
structure PersistState where
  progress : ProgressRecord
  stored : Option String
  emptyWritten : Bool

/-- The record-changing events: a `setChallengeProgress` from the mount
effect or `handleGenerate`, or a `handleFileLoad` with a validated record. -/
inductive PersistEvent where
  | setProgress (p : ProgressRecord)
  | fileLoad (p : ProgressRecord)
deriving DecidableEq, Repr

/-- The `useEffect` on `[challengeProgress]`: persist when the record has at
least one key. -/
def runEffect (serialize : ProgressRecord → String) (s : PersistState) : PersistState :=
  if s.progress.length > 0 then { s with stored := some (serialize s.progress) }
  else s

/-- Apply one event: update the in-memory record (plus, for `fileLoad`, the
direct unguarded write), then run the persistence effect. -/
def applyEvent (serialize : ProgressRecord → String) (s : PersistState) :
    PersistEvent → PersistState
  | .setProgress p => runEffect serialize { s with progress := p }
  | .fileLoad p =>
    runEffect serialize
      { s with
        progress := p
        stored := some (serialize p)
        emptyWritten := s.emptyWritten || p.isEmpty }

/-- Run a sequence of events. -/
def runEvents (serialize : ProgressRecord → String) (s : PersistState) :
    List PersistEvent → PersistState
  | [] => s
  | e :: es => runEvents serialize (applyEvent serialize s e) es

/-- The state right after mount: empty in-memory record, whatever string the
store held, nothing written yet. -/
def initState (stored : Option String) : PersistState :=
  { progress := [], stored := stored, emptyWritten := false }

/-- Compact constructor for concrete progress entries in sample records. -/
def entryWith (st : ChallengeStatus) (streak prev : Rat) : ChallengeProgress :=
  { status := st, streak := streak, previousSimilarityScore := prev }

/-- Sample progress record for concrete runs: challenge 1 unlocked, the
rest locked, all streaks and previous scores zero. -/
def sampleProgress : ProgressFn := fun id =>
  if id = 1 then
    some { status := ChallengeStatus.UNLOCKED, streak := 0, previousSimilarityScore := 0 }
  else if id ≤ 6 then
    some { status := ChallengeStatus.LOCKED, streak := 0, previousSimilarityScore := 0 }
  else Option.none

/-- Sample app state sitting at the first challenge. -/
def sampleState : AppState :=
  { challengeProgress := sampleProgress, currentChallengeIndex := 0,
    prompt := "a red circle", generatedImage := Option.none,
    analysisResult := Option.none, isLoading := false, loadingMessage := "",
    error := Option.none, streakChange := StreakChange.none }

end AppModel

/-! ## WAV container assembly (`services/ttsService.ts`)

`atob` (base64 decoding of the streamed audio chunks) is external and is
passed in as the decoding function.  `DataView.setUint32` and `setUint16`
convert their argument with `ToUint32`/`ToUint16` (truncation toward zero,
then wrap-around); the argument is modelled as a rational because
`bitsPerSample / 8` is a float division. -/

namespace TtsService

/-- WAV conversion parameters, from `interface WavConversionOptions`. -/
structure WavConversionOptions where
  numChannels : Int
  sampleRate : Int
  bitsPerSample : Int
deriving DecidableEq, Repr

/-- ASCII whitespace, as trimmed by `String.prototype.trim` and skipped by
`parseInt`. -/
def isWsChar (c : Char) : Bool :=
  c == ' ' || c == '\t' || c == '\n' || c == '\r'

/-- `String.prototype.split(';')` over the character sequence. -/
def splitOnSemicolon : List Char → List (List Char)
  | [] => [[]]
  | c :: rest =>
    let r := splitOnSemicolon rest
    if c = ';' then [] :: r
    else
      match r with
      | [] => [[c]]
      | xs :: xss => (c :: xs) :: xss

/-- `String.prototype.trim` over the character sequence. -/
def trimChars (cs : List Char) : List Char :=
  ((cs.dropWhile isWsChar).reverse.dropWhile isWsChar).reverse

/-- `String.prototype.startsWith` over character sequences. -/
def startsWithChars (cs pre : List Char) : Bool :=
  List.isPrefixOf pre cs

/-- The characters of the literal 'audio/L'. -/
def audioLChars : List Char := ['a', 'u', 'd', 'i', 'o', '/', 'L']

/-- The characters of the literal 'rate='. -/
def rateChars : List Char := ['r', 'a', 't', 'e', '=']

/-- Numeric value of a decimal digit run. -/
def digitsVal (ds : List Char) : Nat :=
  ds.foldl (fun acc c => acc * 10 + (c.toNat - 48)) 0

/-- JavaScript `parseInt(s, 10)`: skip leading whitespace, read an optional
sign and then a decimal digit run; `NaN` (here `Option.none`) when no digit
follows. -/
def parseIntBase10 (cs : List Char) : Option Int :=
  let cs := cs.dropWhile isWsChar
  let signAndRest : Int × List Char :=
    match cs with
    | '-' :: rest => (-1, rest)
    | '+' :: rest => (1, rest)
    | _ => (1, cs)
  let ds := signAndRest.2.takeWhile Char.isDigit
  if ds.isEmpty then Option.none
  else some (signAndRest.1 * digitsVal ds)

/-- Options while scanning the mime-type parameters: `sampleRate` starts
out `undefined`. -/
structure PartialWavOptions where
  numChannels : Int
  sampleRate : Option Int
  bitsPerSample : Int
deriving DecidableEq, Repr

/-- The loop body of `parseMimeType` for one trimmed parameter. -/
def applyParam (o : PartialWavOptions) (param : List Char) : PartialWavOptions :=
  if startsWithChars param audioLChars then
    match parseIntBase10 (param.drop 7) with
    | some bits => { o with bitsPerSample := bits }
    | Option.none => o
  else if startsWithChars param rateChars then
    match parseIntBase10 (param.drop 5) with
    | some r => { o with sampleRate := some r }
    | Option.none => o
  else o

/-- `parseMimeType` of `ttsService.ts`: split on ';', trim, scan the
parameters over the defaults `numChannels = 1`, `bitsPerSample = 16`, then
replace a falsy `sampleRate` (`undefined` or 0) by 24000. -/
def parseMimeType (mimeType : String) : WavConversionOptions :=
  let params := (splitOnSemicolon mimeType.toList).map trimChars
  let o := params.foldl applyParam
    { numChannels := 1, sampleRate := Option.none, bitsPerSample := 16 }
  { numChannels := o.numChannels
    bitsPerSample := o.bitsPerSample
    sampleRate :=
      match o.sampleRate with
      | some r => if r = 0 then 24000 else r
      | Option.none => 24000 }

/-- JavaScript truncation toward zero of a number. -/
def jsTrunc (q : Rat) : Int :=
  if q < 0 then -((-q).floor) else q.floor

/-- `DataView.setUint32` value conversion: truncate, then wrap into
`[0, 2^32)`. -/
def toUint32 (q : Rat) : Nat :=
  ((jsTrunc q) % (2 ^ 32 : Int)).toNat

/-- `DataView.setUint16` value conversion: truncate, then wrap into
`[0, 2^16)`. -/
def toUint16 (q : Rat) : Nat :=
  ((jsTrunc q) % (2 ^ 16 : Int)).toNat

/-- The little-endian bytes written by `setUint32(offset, v, true)`. -/
def uint32LE (q : Rat) : List Nat :=
  let n := toUint32 q
  [n % 256, n / 256 % 256, n / 256 ^ 2 % 256, n / 256 ^ 3 % 256]

/-- The little-endian bytes written by `setUint16(offset, v, true)`. -/
def uint16LE (q : Rat) : List Nat :=
  let n := toUint16 q
  [n % 256, n / 256]

/-- The bytes stored by `writeString` (one byte per character). -/
def strBytes (s : String) : List Nat := s.toList.map Char.toNat

/-- `createWavHeader` of `ttsService.ts`: the 44 header bytes, fields in
their source order and offsets. -/
def createWavHeader (dataLength : Int) (o : WavConversionOptions) : List Nat :=
  let byteRate : Rat :=
    (o.sampleRate : Rat) * (o.numChannels : Rat) * ((o.bitsPerSample : Rat) / 8)
  let blockAlign : Rat := (o.numChannels : Rat) * ((o.bitsPerSample : Rat) / 8)
  strBytes "RIFF" ++ uint32LE ((36 : Rat) + (dataLength : Rat)) ++
  strBytes "WAVE" ++ strBytes "fmt " ++
  uint32LE 16 ++ uint16LE 1 ++ uint16LE (o.numChannels : Rat) ++
  uint32LE (o.sampleRate : Rat) ++ uint32LE byteRate ++ uint16LE blockAlign ++
  uint16LE (o.bitsPerSample : Rat) ++ strBytes "data" ++
  uint32LE (dataLength : Rat)

/-- `convertToWav` of `ttsService.ts`: decode every chunk, build the header
over the total decoded length, and concatenate — the bytes of the returned
blob. -/
def convertToWav (decode : String → List Nat) (rawData : List String)
    (mimeType : String) : List Nat :=
  let options := parseMimeType mimeType
  let decodedChunks := rawData.map decode
  let dataLength : Int := (((decodedChunks.map List.length).sum : Nat) : Int)
  createWavHeader dataLength options ++ decodedChunks.flatten

/-- Little-endian 32-bit read from a byte list, to state header facts. -/
def readU32 (bytes : List Nat) (off : Nat) : Nat :=
  bytes.getD off 0 + 256 * bytes.getD (off + 1) 0 +
  256 ^ 2 * bytes.getD (off + 2) 0 + 256 ^ 3 * bytes.getD (off + 3) 0

/-- Modelled from the claim's words: the bits-per-sample taken from an
'audio/L<n>' parameter (the last one carrying a number), default 16. -/
def specBits (mimeType : String) : Int :=
  (((splitOnSemicolon mimeType.toList).map trimChars).reverse.filterMap
    (fun p => if startsWithChars p audioLChars then parseIntBase10 (p.drop 7)
              else Option.none)).headD 16

/-- The rate read from one trimmed parameter; a parameter starting with
'audio/L' is a bits parameter, not a rate parameter. -/
def rateOfParam (p : List Char) : Option Int :=
  if startsWithChars p audioLChars then Option.none
  else if startsWithChars p rateChars then parseIntBase10 (p.drop 5)
  else Option.none

/-- Modelled from the claim's words, as stated: the sample rate taken from a
'rate=<n>' parameter (the last one carrying a number), default 24000 when
absent. -/
def specRateClaimed (mimeType : String) : Int :=
  (((splitOnSemicolon mimeType.toList).map trimChars).reverse.filterMap
    rateOfParam).headD 24000

/-- The amended sample-rate reading: as claimed, except that a parsed 0
(falsy, exactly like absence) also falls back to 24000. -/
def specRate (mimeType : String) : Int :=
  match (((splitOnSemicolon mimeType.toList).map trimChars).reverse.filterMap
    rateOfParam).head? with
  | some r => if r = 0 then 24000 else r
  | Option.none => 24000

end TtsService

/-! ## Image generation and analysis (`services/ApiService.ts`)

The HTTP fetch, the Gemini SDK call and `JSON.parse` are external: they are
passed in as outcome values.  `btoa` over the binary string assembled from
the response bytes is base64 encoding, embedded concretely. -/

namespace ApiService

/-- Parsed JSON values: the possible results of `JSON.parse`. -/
inductive Json where
  | null
  | bool (b : Bool)
  | num (q : Rat)
  | str (s : String)
  | arr (items : List Json)
  | obj (fields : List (String × Json))
deriving Repr

/-- First-match lookup among the fields of a JSON object. -/
def lookupField : List (String × Json) → String → Option Json
  | [], _ => Option.none
  | (k, v) :: rest, key => if k = key then some v else lookupField rest key

/-- Property read on a parsed JSON value.  On a non-object the read yields
`undefined` (or throws, which the caller's catch-all turns into the same
rejection), so `Option.none` covers both. -/
def Json.getField : Json → String → Option Json
  | .obj fields, key => lookupField fields key
  | _, _ => Option.none

/-- The per-item check `result.feedback.every(item => typeof item ===
'string')`, together with the extraction of the strings: `some` exactly when
every element is a string. -/
def extractStrings : List Json → Option (List String)
  | [] => some []
  | Json.str s :: rest => (extractStrings rest).map (fun fb => s :: fb)
  | _ => Option.none

/-- The shape validation of `analyzeImages`: a numeric `similarityScore` and
a `feedback` array whose items are all strings. -/
def validateAnalysis (j : Json) : Option AppModel.AnalysisResult :=
  match j.getField "similarityScore", j.getField "feedback" with
  | some (Json.num q), some (Json.arr items) =>
    match extractStrings items with
    | some fb => some { similarityScore := q, feedback := fb }
    | Option.none => Option.none
  | _, _ => Option.none

/-- Outcome of everything upstream of the shape check in `analyzeImages`:
the fetch of the target image, the API call and `JSON.parse` can each throw
(`apiError`), or the response text parses to a JSON value. -/
inductive ApiOutcome where
  | apiError
  | json (j : Json)

/-- The catch-all rejection message of `analyzeImages`. -/
def analysisFailureMsg : String :=
  "Failed to analyze images. The model may have returned an unexpected response."

/-- The `analyzeImages` function of `services/ApiService.ts`: any upstream
failure and any shape violation collapse, via the `catch`, to the same
rejection message; a well-shaped JSON object is returned as the result. -/
def analyzeImages (o : ApiOutcome) : Except String AppModel.AnalysisResult :=
  match o with
  | .apiError => .error analysisFailureMsg
  | .json j =>
    match validateAnalysis j with
    | some r => .ok r
    | Option.none => .error analysisFailureMsg

/-- The base64 alphabet used by `btoa`. -/
def base64Chars : List Char :=
  "ABCDEFGHIJKLMNOPQRSTUVWXYZabcdefghijklmnopqrstuvwxyz0123456789+/".toList

/-- Digit lookup into the base64 alphabet. -/
def base64Digit (n : Nat) : Char := base64Chars.getD n 'A'

/-- `btoa` applied to the binary string carrying the given bytes: standard
base64 with `=` padding, three bytes to four digits. -/
def base64Encode : List Nat → String
  | [] => ""
  | [b1] =>
    String.mk [base64Digit (b1 / 4), base64Digit (b1 % 4 * 16), '=', '=']
  | [b1, b2] =>
    String.mk [base64Digit (b1 / 4), base64Digit (b1 % 4 * 16 + b2 / 16),
      base64Digit (b2 % 16 * 4), '=']
  | b1 :: b2 :: b3 :: rest =>
    String.mk [base64Digit (b1 / 4), base64Digit (b1 % 4 * 16 + b2 / 16),
      base64Digit (b2 % 16 * 4 + b3 / 64), base64Digit (b3 % 64)] ++
    base64Encode rest

/-- Outcome of the `fetch` of the pollinations image: the promise chain can
reject (`networkError`) or produce a response with its `ok` flag,
`statusText` and body bytes. -/
inductive FetchOutcome where
  | networkError
  | response (ok : Bool) (statusText : String) (body : List Nat)

/-- The `generateImage` function of `services/ApiService.ts`, with the
service selector and the external outcomes explicit.  `geminiImage` is the
outcome of the Gemini SDK call (`.ok` with base64 bytes, `.error` when the
SDK throws or returns no image). -/
def generateImage (service : String) (fetched : FetchOutcome)
    (geminiImage : Except Unit String) : Except String String :=
  if service = "pollinations" then
    match fetched with
    | .networkError =>
      .error "Failed to generate image. Please check your prompt or internet connection."
    | .response ok _ body =>
      if ok then .ok (base64Encode body)
      else
        .error "Failed to generate image. Please check your prompt or internet connection."
  else if service = "gemini" then
    match geminiImage with
    | .ok b => .ok b
    | .error _ => .error "Failed to generate image with Gemini."
  else
    .error "Unknown image service selected"

end ApiService

/-! ## Theorems -/

/-- The fixed sequence has six challenges. -/
theorem CHALLENGES_length : CHALLENGES.length = 6 := rfl

/-- Challenge ids in the fixed sequence are the position plus one. -/
theorem CHALLENGES_id_eq (i : Nat) (cc : Challenge)
    (h : CHALLENGES[i]? = some cc) : cc.id = i + 1 := by
  have hi : i < 6 := by
    by_contra hge
    have hnone : CHALLENGES[i]? = Option.none :=
      List.getElem?_eq_none (by rw [CHALLENGES_length]; omega)
    rw [hnone] at h
    exact Option.noConfusion h
  interval_cases i <;> (simp [CHALLENGES] at h; subst h; rfl)

namespace AppModel

/-- Helper: on a run where generation and analysis both succeed but the pass
condition fails (score below threshold or challenge already completed), the
progress record is updated only at the current challenge, with the ticked
entry. -/
theorem handleGenerate_progress_noPass (s : AppState) (img : String)
    (result : AnalysisResult) (cc : Challenge) (p : ChallengeProgress)
    (hcc : CHALLENGES[s.currentChallengeIndex]? = some cc)
    (hp : s.challengeProgress cc.id = some p)
    (hno : ¬ (PASS_THRESHOLD ≤ result.similarityScore ∧
              p.status ≠ ChallengeStatus.COMPLETED)) :
    (handleGenerate s (Except.ok img) (Except.ok result)).challengeProgress =
      Function.update s.challengeProgress cc.id
        (some (tickedEntry p result.similarityScore)) := by
  simp only [handleGenerate, handleGenerateTry, hcc, hp]
  have hno' : ¬ (PASS_THRESHOLD ≤ result.similarityScore ∧
      (tickedEntry p result.similarityScore).status ≠ ChallengeStatus.COMPLETED) := hno
  rw [if_neg hno']

/-- Helper: on a newly passing run with no next challenge in the sequence,
only the current challenge's entry changes, to the passed entry. -/
theorem handleGenerate_progress_pass_noNext (s : AppState) (img : String)
    (result : AnalysisResult) (cc : Challenge) (p : ChallengeProgress)
    (hcc : CHALLENGES[s.currentChallengeIndex]? = some cc)
    (hp : s.challengeProgress cc.id = some p)
    (hpass : PASS_THRESHOLD ≤ result.similarityScore)
    (hncomp : p.status ≠ ChallengeStatus.COMPLETED)
    (hnone : CHALLENGES[s.currentChallengeIndex + 1]? = Option.none) :
    (handleGenerate s (Except.ok img) (Except.ok result)).challengeProgress =
      Function.update s.challengeProgress cc.id
        (some (passedEntry p result.similarityScore)) := by
  simp only [handleGenerate, handleGenerateTry, hcc, hp]
  have hyes : PASS_THRESHOLD ≤ result.similarityScore ∧
      (tickedEntry p result.similarityScore).status ≠ ChallengeStatus.COMPLETED :=
    ⟨hpass, hncomp⟩
  rw [if_pos hyes, hnone]
  rfl

/-- Helper: on a newly passing run with a next challenge whose entry exists,
the current entry becomes the passed entry and the next entry is unlocked
exactly when it was locked. -/
theorem handleGenerate_progress_pass_next (s : AppState) (img : String)
    (result : AnalysisResult) (cc nc : Challenge) (p q : ChallengeProgress)
    (hcc : CHALLENGES[s.currentChallengeIndex]? = some cc)
    (hp : s.challengeProgress cc.id = some p)
    (hpass : PASS_THRESHOLD ≤ result.similarityScore)
    (hncomp : p.status ≠ ChallengeStatus.COMPLETED)
    (hnc : CHALLENGES[s.currentChallengeIndex + 1]? = some nc)
    (hne : nc.id ≠ cc.id)
    (hq : s.challengeProgress nc.id = some q) :
    (handleGenerate s (Except.ok img) (Except.ok result)).challengeProgress =
      (if q.status = ChallengeStatus.LOCKED then
        Function.update
          (Function.update s.challengeProgress cc.id
            (some (passedEntry p result.similarityScore)))
          nc.id (some { q with status := ChallengeStatus.UNLOCKED })
      else
        Function.update s.challengeProgress cc.id
          (some (passedEntry p result.similarityScore))) := by
  simp only [handleGenerate, handleGenerateTry, hcc, hp]
  have hyes : PASS_THRESHOLD ≤ result.similarityScore ∧
      (tickedEntry p result.similarityScore).status ≠ ChallengeStatus.COMPLETED :=
    ⟨hpass, hncomp⟩
  rw [if_pos hyes]
  simp only [hnc]
  rw [Function.update_noteq hne, hq]
  rfl

/-- Helper: when generation and analysis succeed and the needed entries
exist, the current challenge's entry after `handleGenerate` carries the new
streak and the new previous score (whatever the resulting status is). -/
theorem handleGenerate_current_entry (s : AppState) (img : String)
    (result : AnalysisResult) (cc : Challenge) (p : ChallengeProgress)
    (hcc : CHALLENGES[s.currentChallengeIndex]? = some cc)
    (hp : s.challengeProgress cc.id = some p)
    (hnext : ∀ nc, CHALLENGES[s.currentChallengeIndex + 1]? = some nc →
      ∃ q, s.challengeProgress nc.id = some q) :
    ∃ st,
      (handleGenerate s (Except.ok img) (Except.ok result)).challengeProgress cc.id =
        some { status := st, streak := newStreakOf p result.similarityScore,
               previousSimilarityScore := result.similarityScore } := by
  by_cases hpass : PASS_THRESHOLD ≤ result.similarityScore ∧
      p.status ≠ ChallengeStatus.COMPLETED
  · rcases h2 : CHALLENGES[s.currentChallengeIndex + 1]? with _ | nc
    · refine ⟨ChallengeStatus.COMPLETED, ?_⟩
      rw [handleGenerate_progress_pass_noNext s img result cc p hcc hp hpass.1 hpass.2 h2,
        Function.update_same]
      rfl
    · obtain ⟨q, hq⟩ := hnext nc h2
      have hcid := CHALLENGES_id_eq _ _ hcc
      have hnid := CHALLENGES_id_eq _ _ h2
      have hne : nc.id ≠ cc.id := by omega
      refine ⟨ChallengeStatus.COMPLETED, ?_⟩
      rw [handleGenerate_progress_pass_next s img result cc nc p q hcc hp
        hpass.1 hpass.2 h2 hne hq]
      by_cases hlock : q.status = ChallengeStatus.LOCKED
      · rw [if_pos hlock, Function.update_noteq (Ne.symm hne), Function.update_same]
        rfl
      · rw [if_neg hlock, Function.update_same]
        rfl
  · refine ⟨p.status, ?_⟩
    rw [handleGenerate_progress_noPass s img result cc p hcc hp hpass,
      Function.update_same]
    rfl

/-- C1: for every analysis result returned for the current challenge, if the
similarity score is at least `PASS_THRESHOLD` and the challenge is not
already `COMPLETED` (and the progress record has entries for the current
and, when the sequence continues, the next challenge), then after
`handleGenerate` the current challenge is `COMPLETED`; a next challenge that
was `LOCKED` becomes `UNLOCKED` and one that was not keeps its entry; the
entries (hence statuses) of all other challenges are unchanged. -/
theorem handleGenerate_pass_completes_and_unlocks
    (s : AppState) (img : String) (result : AnalysisResult)
    (cc : Challenge) (p : ChallengeProgress)
    (hcc : CHALLENGES[s.currentChallengeIndex]? = some cc)
    (hp : s.challengeProgress cc.id = some p)
    (hpass : PASS_THRESHOLD ≤ result.similarityScore)
    (hncomp : p.status ≠ ChallengeStatus.COMPLETED)
    (hnext : ∀ nc, CHALLENGES[s.currentChallengeIndex + 1]? = some nc →
      ∃ q, s.challengeProgress nc.id = some q) :
    ((handleGenerate s (Except.ok img) (Except.ok result)).challengeProgress cc.id).map
        ChallengeProgress.status = some ChallengeStatus.COMPLETED ∧
    (∀ nc q, CHALLENGES[s.currentChallengeIndex + 1]? = some nc →
      s.challengeProgress nc.id = some q →
      (q.status = ChallengeStatus.LOCKED →
        ((handleGenerate s (Except.ok img) (Except.ok result)).challengeProgress nc.id).map
          ChallengeProgress.status = some ChallengeStatus.UNLOCKED) ∧
      (q.status ≠ ChallengeStatus.LOCKED →
        (handleGenerate s (Except.ok img) (Except.ok result)).challengeProgress nc.id =
          some q)) ∧
    (∀ j, j ≠ cc.id →
      (∀ nc, CHALLENGES[s.currentChallengeIndex + 1]? = some nc → j ≠ nc.id) →
      (handleGenerate s (Except.ok img) (Except.ok result)).challengeProgress j =
        s.challengeProgress j) := by
  rcases h2 : CHALLENGES[s.currentChallengeIndex + 1]? with _ | nc
  · rw [handleGenerate_progress_pass_noNext s img result cc p hcc hp hpass hncomp h2]
    refine ⟨?_, ?_, ?_⟩
    · rw [Function.update_same]
      rfl
    · intro nc q hnc hq
      exact Option.noConfusion hnc
    · intro j hj _
      exact Function.update_noteq hj _ _
  · obtain ⟨q, hq⟩ := hnext nc h2
    have hcid := CHALLENGES_id_eq _ _ hcc
    have hnid := CHALLENGES_id_eq _ _ h2
    have hne : nc.id ≠ cc.id := by omega
    rw [handleGenerate_progress_pass_next s img result cc nc p q hcc hp
      hpass hncomp h2 hne hq]
    refine ⟨?_, ?_, ?_⟩
    · by_cases hlock : q.status = ChallengeStatus.LOCKED
      · rw [if_pos hlock, Function.update_noteq (Ne.symm hne), Function.update_same]
        rfl
      · rw [if_neg hlock, Function.update_same]
        rfl
    · intro nc' q' hnc' hq'
      obtain rfl : nc = nc' := Option.some.inj hnc'
      obtain rfl : q = q' := Option.some.inj (hq.symm.trans hq')
      constructor
      · intro hlock
        rw [if_pos hlock, Function.update_same]
        rfl
      · intro hlock
        rw [if_neg hlock, Function.update_noteq hne, hq]
    · intro j hj hjn
      have hjne : j ≠ nc.id := hjn nc rfl
      by_cases hlock : q.status = ChallengeStatus.LOCKED
      · rw [if_pos hlock, Function.update_noteq hjne, Function.update_noteq hj]
      · rw [if_neg hlock, Function.update_noteq hj]

/-- C2: for every analysis result and every prior progress entry of the
current challenge (when the record has the entries a successful run reads),
`handleGenerate` updates the streak: `+1` on a strict improvement,
`max 0 (streak - 2)` on a strict regression, unchanged on a tie, and in all
three cases the stored previous similarity score becomes the new score. -/
theorem handleGenerate_streak_update
    (s : AppState) (img : String) (result : AnalysisResult)
    (cc : Challenge) (p : ChallengeProgress)
    (hcc : CHALLENGES[s.currentChallengeIndex]? = some cc)
    (hp : s.challengeProgress cc.id = some p)
    (hnext : ∀ nc, CHALLENGES[s.currentChallengeIndex + 1]? = some nc →
      ∃ q, s.challengeProgress nc.id = some q) :
    (p.previousSimilarityScore < result.similarityScore →
      ((handleGenerate s (Except.ok img) (Except.ok result)).challengeProgress cc.id).map
        ChallengeProgress.streak = some (p.streak + 1)) ∧
    (result.similarityScore < p.previousSimilarityScore →
      ((handleGenerate s (Except.ok img) (Except.ok result)).challengeProgress cc.id).map
        ChallengeProgress.streak = some (max 0 (p.streak - 2))) ∧
    (p.previousSimilarityScore = result.similarityScore →
      ((handleGenerate s (Except.ok img) (Except.ok result)).challengeProgress cc.id).map
        ChallengeProgress.streak = some p.streak) ∧
    ((handleGenerate s (Except.ok img) (Except.ok result)).challengeProgress cc.id).map
      ChallengeProgress.previousSimilarityScore = some result.similarityScore := by
  obtain ⟨st, hentry⟩ := handleGenerate_current_entry s img result cc p hcc hp hnext
  rw [hentry]
  refine ⟨?_, ?_, ?_, rfl⟩
  · intro h
    simp only [Option.map_some', newStreakOf, if_pos h]
  · intro h
    simp only [Option.map_some', newStreakOf]
    rw [if_neg (lt_asymm h), if_pos h]
  · intro h
    simp only [Option.map_some', newStreakOf]
    rw [if_neg (by rw [h]; exact lt_irrefl _),
      if_neg (by rw [h]; exact lt_irrefl _)]

/-- C10: if image generation or image analysis rejects, `handleGenerate`
leaves the challenge-progress record, the current challenge index, the
prompt and the streak-change flag unchanged (only the error message, the
loading flags, and the displayed image/result can differ). -/
theorem handleGenerate_reject_preserves_progress (s : AppState)
    (gen : Except String String) (ana : Except String AnalysisResult)
    (h : (∃ m, gen = Except.error m) ∨ (∃ m, ana = Except.error m)) :
    (handleGenerate s gen ana).challengeProgress = s.challengeProgress ∧
    (handleGenerate s gen ana).currentChallengeIndex = s.currentChallengeIndex ∧
    (handleGenerate s gen ana).prompt = s.prompt ∧
    (handleGenerate s gen ana).streakChange = s.streakChange := by
  rcases h with ⟨m, rfl⟩ | ⟨m, rfl⟩
  · exact ⟨rfl, rfl, rfl, rfl⟩
  · cases gen with
    | error m2 => exact ⟨rfl, rfl, rfl, rfl⟩
    | ok img => exact ⟨rfl, rfl, rfl, rfl⟩

/-- Witness for C1: from the sample state, scoring 85 on challenge 1
completes it and unlocks challenge 2. -/
theorem handleGenerate_pass_completes_and_unlocks_witness :
    ((handleGenerate sampleState (Except.ok "")
        (Except.ok { similarityScore := 85, feedback := [] })).challengeProgress 1).map
      ChallengeProgress.status = some ChallengeStatus.COMPLETED ∧
    ((handleGenerate sampleState (Except.ok "")
        (Except.ok { similarityScore := 85, feedback := [] })).challengeProgress 2).map
      ChallengeProgress.status = some ChallengeStatus.UNLOCKED := by
  have h := handleGenerate_pass_completes_and_unlocks sampleState ""
    { similarityScore := 85, feedback := [] } _
    { status := ChallengeStatus.UNLOCKED, streak := 0, previousSimilarityScore := 0 }
    rfl rfl (by decide) (by decide)
    (fun nc hnc => ⟨_, by rw [CHALLENGES_id_eq _ _ hnc]; rfl⟩)
  exact ⟨h.1, (h.2.1 _
    { status := ChallengeStatus.LOCKED, streak := 0, previousSimilarityScore := 0 }
    rfl rfl).1 rfl⟩

/-- Witness for C2: from the sample state (previous score 0), scoring 85
bumps the streak from 0 to 1 and stores 85 as the previous score. -/
theorem handleGenerate_streak_update_witness :
    ((handleGenerate sampleState (Except.ok "")
        (Except.ok { similarityScore := 85, feedback := [] })).challengeProgress 1).map
      ChallengeProgress.streak = some ((0 : Rat) + 1) ∧
    ((handleGenerate sampleState (Except.ok "")
        (Except.ok { similarityScore := 85, feedback := [] })).challengeProgress 1).map
      ChallengeProgress.previousSimilarityScore = some 85 := by
  have h := handleGenerate_streak_update sampleState ""
    { similarityScore := 85, feedback := [] } _
    { status := ChallengeStatus.UNLOCKED, streak := 0, previousSimilarityScore := 0 }
    rfl rfl
    (fun nc hnc => ⟨_, by rw [CHALLENGES_id_eq _ _ hnc]; rfl⟩)
  exact ⟨h.1 (by decide), h.2.2.2⟩

/-- Witness for C10: a rejected image generation leaves progress, index,
prompt and streak-change flag of the sample state unchanged. -/
theorem handleGenerate_reject_preserves_progress_witness :
    (handleGenerate sampleState
        (Except.error "Failed to generate image. Please check your prompt or internet connection.")
        (Except.ok { similarityScore := 85, feedback := [] })).challengeProgress =
      sampleState.challengeProgress ∧
    (handleGenerate sampleState
        (Except.error "Failed to generate image. Please check your prompt or internet connection.")
        (Except.ok { similarityScore := 85, feedback := [] })).currentChallengeIndex =
      sampleState.currentChallengeIndex ∧
    (handleGenerate sampleState
        (Except.error "Failed to generate image. Please check your prompt or internet connection.")
        (Except.ok { similarityScore := 85, feedback := [] })).prompt =
      sampleState.prompt ∧
    (handleGenerate sampleState
        (Except.error "Failed to generate image. Please check your prompt or internet connection.")
        (Except.ok { similarityScore := 85, feedback := [] })).streakChange =
      sampleState.streakChange :=
  handleGenerate_reject_preserves_progress sampleState _ _ (Or.inl ⟨_, rfl⟩)

/-- Helper: `lastIndexOf` returns the last element of the list of all
matching indexes, `-1` when there is none. -/
theorem lastIndexOf_eq_filter [DecidableEq α] (d a : α) (l : List α) :
    lastIndexOf l a =
      match ((List.range l.length).filter (fun i => l.getD i d = a)).getLast? with
      | some i => (i : Int)
      | Option.none => -1 := by
  induction l with
  | nil => rfl
  | cons x rest ih =>
    have hsplit : (List.range (x :: rest).length).filter
        (fun i => (x :: rest).getD i d = a) =
        (if x = a then [0] else []) ++
        ((List.range rest.length).filter (fun i => rest.getD i d = a)).map Nat.succ := by
      rw [List.length_cons, List.range_succ_eq_map, List.filter_cons]
      by_cases hx : x = a
      · simp [hx, List.filter_map, Function.comp_def, List.getD_cons_succ]
      · simp [hx, List.filter_map, Function.comp_def, List.getD_cons_succ]
    rw [hsplit, List.getLast?_append, List.getLast?_map]
    rcases hm : ((List.range rest.length).filter
        (fun i => rest.getD i d = a)).getLast? with _ | i
    · have hrest : lastIndexOf rest a = -1 := by rw [ih, hm]
      by_cases hx : x = a
      · simp [lastIndexOf, hrest, hx]
      · simp [lastIndexOf, hrest, hx]
    · have hrest : lastIndexOf rest a = (i : Int) := by rw [ih, hm]
      simp only [lastIndexOf, hrest, Option.map_some', Option.or_some]
      rw [if_pos (by omega : (0 : Int) ≤ (i : Int))]
      simp

/-- Helper: mapping `some` over the status list does not change the last
index of a (`some`-wrapped) value. -/
theorem lastIndexOf_map_some [DecidableEq α] (l : List α) (a : α) :
    lastIndexOf (l.map some) (some a) = lastIndexOf l a := by
  induction l with
  | nil => rfl
  | cons x rest ih =>
    simp only [List.map_cons, lastIndexOf, ih, Option.some.injEq]

/-- Helper: the file-load status list is the mount status list wrapped in
`some` whenever the record has exactly the six challenge keys in order. -/
theorem fileLoadStatuses_full (p1 p2 p3 p4 p5 p6 : ChallengeProgress) :
    fileLoadStatuses [(1, p1), (2, p2), (3, p3), (4, p4), (5, p5), (6, p6)] =
      (mountStatuses [(1, p1), (2, p2), (3, p3), (4, p4), (5, p5), (6, p6)]).map some :=
  rfl

/-- C6 amended: the index computed by `handleFileLoad` agrees with the
claimed formula for every saved record; the index computed by the mount
effect agrees with it whenever the record has an entry for each of the six
challenge ids (it reads statuses by position among the record's values, so
partial records shift the positions). -/
theorem loadIndex_spec :
    (∀ progress : ProgressRecord,
      fileLoadIndex progress = specLoadIndex (fileLoadStatuses progress)) ∧
    (∀ p1 p2 p3 p4 p5 p6 : ChallengeProgress,
      mountIndex [(1, p1), (2, p2), (3, p3), (4, p4), (5, p5), (6, p6)] =
        specLoadIndex (fileLoadStatuses
          [(1, p1), (2, p2), (3, p3), (4, p4), (5, p5), (6, p6)])) := by
  have hfile : ∀ progress : ProgressRecord,
      fileLoadIndex progress = specLoadIndex (fileLoadStatuses progress) := by
    intro progress
    unfold fileLoadIndex specLoadIndex selectIndex
    rw [lastIndexOf_eq_filter Option.none]
    rcases hm : ((List.range (fileLoadStatuses progress).length).filter
        (fun i => (fileLoadStatuses progress).getD i Option.none =
          some ChallengeStatus.COMPLETED)).getLast? with _ | lc
    · dsimp only
      norm_num
    · dsimp only
      by_cases hlt : (lc : Int) + 1 < (CHALLENGES.length : Int)
      · rw [if_pos hlt, if_pos hlt]
      · rw [if_neg hlt, if_neg hlt, if_pos (by omega : (lc : Int) > -1)]
  refine ⟨hfile, ?_⟩
  intro p1 p2 p3 p4 p5 p6
  rw [← hfile]
  unfold mountIndex fileLoadIndex
  rw [fileLoadStatuses_full, lastIndexOf_map_some]

/-- Witness for the amended C6 at a concrete full record: with exactly the
first two challenges completed, both loaders pick index 2. -/
theorem loadIndex_spec_witness :
    mountIndex [(1, entryWith ChallengeStatus.COMPLETED 1 90),
      (2, entryWith ChallengeStatus.COMPLETED 1 85),
      (3, entryWith ChallengeStatus.UNLOCKED 0 0),
      (4, entryWith ChallengeStatus.LOCKED 0 0),
      (5, entryWith ChallengeStatus.LOCKED 0 0),
      (6, entryWith ChallengeStatus.LOCKED 0 0)] = 2 ∧
    specLoadIndex (fileLoadStatuses
      [(1, entryWith ChallengeStatus.COMPLETED 1 90),
       (2, entryWith ChallengeStatus.COMPLETED 1 85),
       (3, entryWith ChallengeStatus.UNLOCKED 0 0),
       (4, entryWith ChallengeStatus.LOCKED 0 0),
       (5, entryWith ChallengeStatus.LOCKED 0 0),
       (6, entryWith ChallengeStatus.LOCKED 0 0)]) = 2 := by
  constructor
  · rw [loadIndex_spec.2]
    decide
  · decide

/-- Counterexample to C6 as stated: a saved record holding only challenge 5
as COMPLETED.  The claimed formula (and `handleFileLoad`) selects index 5,
the index after the completed challenge, but the mount effect reads the
record's values by position and selects index 1. -/
theorem mountIndex_partial_record_cex :
    mountIndex [(5, entryWith ChallengeStatus.COMPLETED 0 0)] = 1 ∧
    specLoadIndex (fileLoadStatuses
      [(5, entryWith ChallengeStatus.COMPLETED 0 0)]) = 5 ∧
    mountIndex [(5, entryWith ChallengeStatus.COMPLETED 0 0)] ≠
      specLoadIndex (fileLoadStatuses
        [(5, entryWith ChallengeStatus.COMPLETED 0 0)]) := by
  refine ⟨by decide, by decide, by decide⟩

/-- Helper: after any event the store holds the serialization of the
in-memory record whenever that record is non-empty. -/
theorem applyEvent_stored (serialize : ProgressRecord → String)
    (s : PersistState) (e : PersistEvent)
    (h : (applyEvent serialize s e).progress ≠ []) :
    (applyEvent serialize s e).stored =
      some (serialize (applyEvent serialize s e).progress) := by
  cases e with
  | setProgress p =>
    by_cases hp : p.length > 0
    · simp [applyEvent, runEffect, hp]
    · exfalso
      apply h
      have hpe : p = [] := by
        rcases p with _ | ⟨a, t⟩
        · rfl
        · exact absurd (by simp) hp
      simp [applyEvent, runEffect, hp, hpe]
  | fileLoad p =>
    by_cases hp : p.length > 0
    · simp [applyEvent, runEffect, hp]
    · simp [applyEvent, runEffect, hp]

/-- Helper: the empty-written flag is raised only by a `fileLoad` of an
empty record. -/
theorem runEvents_emptyWritten (serialize : ProgressRecord → String) :
    ∀ (events : List PersistEvent) (s : PersistState),
    (runEvents serialize s events).emptyWritten = true →
    s.emptyWritten = true ∨ PersistEvent.fileLoad [] ∈ events := by
  intro events
  induction events with
  | nil =>
    intro s h
    exact Or.inl h
  | cons e es ih =>
    intro s h
    rcases ih (applyEvent serialize s e) h with h1 | h1
    · cases e with
      | setProgress p =>
        by_cases hp : p.length > 0 <;>
          simp_all [applyEvent, runEffect]
      | fileLoad p =>
        by_cases hp : p.length > 0
        · have : p ≠ [] := by
            intro hc
            rw [hc] at hp
            exact absurd hp (by simp)
          simp_all [applyEvent, runEffect, List.isEmpty_iff]
        · have hpe : p = [] := by
            rcases p with _ | ⟨a, t⟩
            · rfl
            · exact absurd (by simp : (a :: t).length > 0) hp
          subst hpe
          exact Or.inr (List.mem_cons_self _ _)
    · exact Or.inr (List.mem_cons_of_mem _ h1)

/-- Helper: the stored-matches-progress invariant holds at the end of any
run that starts in a state satisfying it. -/
theorem runEvents_stored (serialize : ProgressRecord → String) :
    ∀ (events : List PersistEvent) (s : PersistState),
    (s.progress ≠ [] → s.stored = some (serialize s.progress)) →
    ((runEvents serialize s events).progress ≠ [] →
      (runEvents serialize s events).stored =
        some (serialize (runEvents serialize s events).progress)) := by
  intro events
  induction events with
  | nil =>
    intro s hs
    exact hs
  | cons e es ih =>
    intro s hs
    exact ih (applyEvent serialize s e) (applyEvent_stored serialize s e)

/-- C5 amended: along every run of record-changing events from the mount
state, whenever the in-memory progress record is non-empty the stored value
equals the serialization of the current record; the reactive persistence
effect never writes an empty record, and an empty write can occur only by
loading a progress file that contains no entries. -/
theorem progress_persistence (serialize : ProgressRecord → String)
    (stored0 : Option String) (events : List PersistEvent) :
    ((runEvents serialize (initState stored0) events).progress ≠ [] →
      (runEvents serialize (initState stored0) events).stored =
        some (serialize (runEvents serialize (initState stored0) events).progress)) ∧
    ((runEvents serialize (initState stored0) events).emptyWritten = true →
      PersistEvent.fileLoad [] ∈ events) := by
  constructor
  · exact runEvents_stored serialize events (initState stored0)
      (fun h => absurd rfl h)
  · intro h
    rcases runEvents_emptyWritten serialize events (initState stored0) h with h1 | h1
    · exact absurd h1 (by simp [initState])
    · exact h1

/-- Witness for the amended C5: one `setChallengeProgress` with a one-entry
record leaves its serialization in the store and never writes an empty
record. -/
theorem progress_persistence_witness :
    (runEvents (fun p => toString p.length) (initState Option.none)
      [PersistEvent.setProgress
        [(1, entryWith ChallengeStatus.UNLOCKED 0 0)]]).stored =
      some (toString
        ([(1, entryWith ChallengeStatus.UNLOCKED 0 0)] : ProgressRecord).length) ∧
    (runEvents (fun p => toString p.length) (initState Option.none)
      [PersistEvent.setProgress
        [(1, entryWith ChallengeStatus.UNLOCKED 0 0)]]).emptyWritten = false := by
  constructor
  · exact (progress_persistence (fun p => toString p.length) Option.none
      [PersistEvent.setProgress
        [(1, entryWith ChallengeStatus.UNLOCKED 0 0)]]).1 (by decide)
  · decide

/-- Counterexample to C5 as stated: loading a progress file that parses to
an empty object writes the serialization of the empty record to local
storage, although the claim says an empty record is never written. -/
theorem fileLoad_empty_write_cex :
    (runEvents (fun _ => "serialized") (initState Option.none)
      [PersistEvent.fileLoad []]).emptyWritten = true ∧
    (runEvents (fun _ => "serialized") (initState Option.none)
      [PersistEvent.fileLoad []]).stored = some "serialized" := by
  refine ⟨rfl, rfl⟩

end AppModel

namespace AuthService

/-- Lookup after a property write at the same key finds the written value. -/
theorem usersGet_usersSet_same (users : Users) (e pw : String) :
    usersGet (usersSet users e pw) e = some pw := by
  induction users with
  | nil => simp [usersSet, usersGet]
  | cons kv rest ih =>
    obtain ⟨k, v⟩ := kv
    by_cases hk : k = e
    · simp [usersSet, usersGet, hk]
    · simp [usersSet, usersGet, hk, ih]

/-- A successful lookup returns one of the stored passwords. -/
theorem usersGet_mem (users : Users) (e p : String)
    (h : usersGet users e = some p) : p ∈ users.map Prod.snd := by
  induction users with
  | nil => exact Option.noConfusion h
  | cons kv rest ih =>
    obtain ⟨k, v⟩ := kv
    by_cases hk : k = e
    · simp [usersGet, hk] at h
      simp [h]
    · simp [usersGet, hk] at h
      simp [ih h]

/-- Counterexample to C9 as stated: signing up with the empty password
succeeds and stores the pair, yet logging in with exactly those credentials
is rejected with the user-not-found message although the email is
registered (the empty stored password is falsy in JavaScript). -/
theorem signup_login_empty_password_cex :
    signup [] "agent@pec.com" "" =
      Except.ok ({ email := "agent@pec.com" }, [("agent@pec.com", "")]) ∧
    usersGet [("agent@pec.com", "")] "agent@pec.com" = some "" ∧
    login [("agent@pec.com", "")] "agent@pec.com" "" =
      Except.error "User not found. Please sign up first." := by
  refine ⟨rfl, by simp [usersGet], rfl⟩

/-- C9 amended: over any stored record whose passwords are all non-empty,
and for a non-empty candidate password: signup rejects with
email-already-exists exactly when the email is registered and otherwise
registers the pair and returns the user; login rejects with user-not-found
exactly when the email is unregistered, rejects with incorrect-password
exactly when it is registered under a different password, and returns the
user when the password matches; hence a successful signup followed by login
with the same email and password succeeds. -/
theorem auth_spec (users : Users) (email password : String)
    (hstored : ∀ p ∈ users.map Prod.snd, p ≠ "")
    (hpw : password ≠ "") :
    (signup users email password = Except.error "Email already exists." ↔
      (∃ p', usersGet users email = some p')) ∧
    (usersGet users email = Option.none →
      signup users email password =
        Except.ok ({ email := email }, usersSet users email password)) ∧
    (login users email password =
        Except.error "User not found. Please sign up first." ↔
      usersGet users email = Option.none) ∧
    (login users email password = Except.error "Incorrect password." ↔
      (∃ p', usersGet users email = some p' ∧ p' ≠ password)) ∧
    (usersGet users email = some password →
      login users email password = Except.ok { email := email }) ∧
    (usersGet users email = Option.none →
      login (usersSet users email password) email password =
        Except.ok { email := email }) := by
  refine ⟨?_, ?_, ?_, ?_, ?_, ?_⟩
  · cases hu : usersGet users email with
    | none => simp [signup, hu, truthy]
    | some p =>
      have hp : p ≠ "" := hstored p (usersGet_mem users email p hu)
      simp [signup, hu, truthy, hp]
  · intro hu
    simp [signup, hu, truthy]
  · cases hu : usersGet users email with
    | none => simp [login, hu, truthy]
    | some p =>
      have hp : p ≠ "" := hstored p (usersGet_mem users email p hu)
      by_cases hpq : p = password
      · subst hpq
        simp [login, hu, truthy, hp]
      · simp [login, hu, truthy, hp, hpq]
  · cases hu : usersGet users email with
    | none => simp [login, hu, truthy]
    | some p =>
      have hp : p ≠ "" := hstored p (usersGet_mem users email p hu)
      by_cases hpq : p = password
      · subst hpq
        simp [login, hu, truthy, hp]
      · simp [login, hu, truthy, hp, hpq]
  · intro hu
    simp [login, hu, truthy, hpw]
  · intro hu
    simp [login, usersGet_usersSet_same, truthy, hpw]

/-- Witness for the amended C9 at a concrete record: login with the stored
password succeeds, signup with a taken email is rejected, and a fresh
signup-then-login round trip succeeds. -/
theorem auth_spec_witness :
    login [("a@pec.com", "secret")] "a@pec.com" "secret" =
      Except.ok { email := "a@pec.com" } ∧
    signup [("a@pec.com", "secret")] "a@pec.com" "other" =
      Except.error "Email already exists." ∧
    login (usersSet [("a@pec.com", "secret")] "b@pec.com" "pw2") "b@pec.com" "pw2" =
      Except.ok { email := "b@pec.com" } := by
  have hstored : ∀ p ∈ ([("a@pec.com", "secret")] : Users).map Prod.snd, p ≠ "" := by
    simp
  refine ⟨?_, ?_, ?_⟩
  · exact (auth_spec [("a@pec.com", "secret")] "a@pec.com" "secret" hstored
      (by simp)).2.2.2.2.1 (by simp [usersGet])
  · exact (auth_spec [("a@pec.com", "secret")] "a@pec.com" "other" hstored
      (by simp)).1.mpr ⟨"secret", by simp [usersGet]⟩
  · exact (auth_spec [("a@pec.com", "secret")] "b@pec.com" "pw2" hstored
      (by simp)).2.2.2.2.2 (by simp [usersGet])

end AuthService

namespace AnalysisService

/-- The wrap-around primitive lands in the signed 32-bit range. -/
theorem toInt32_bounds (n : Int) : -(2 ^ 31) ≤ toInt32 n ∧ toInt32 n < 2 ^ 31 := by
  unfold toInt32
  have h1 : (0 : Int) ≤ (n + 2 ^ 31) % 2 ^ 32 :=
    Int.emod_nonneg _ (by norm_num)
  have h2 : (n + 2 ^ 31) % 2 ^ 32 < 2 ^ 32 :=
    Int.emod_lt_of_pos _ (by norm_num)
  omega

/-- C8: `getSeedFromString` is deterministic, always non-negative, returns 0
on the empty string, and every hash-loop iteration wraps into the signed
32-bit range; consequently the analysis seed depends only on the challenge
image URL and the first 256 characters of the generated image's base64
string. -/
theorem getSeedFromString_spec :
    (∀ s t : String, s = t → getSeedFromString s = getSeedFromString t) ∧
    (∀ s : String, 0 ≤ getSeedFromString s) ∧
    getSeedFromString "" = 0 ∧
    (∀ (h : Int) (c : Nat), -(2 ^ 31) ≤ hashStep h c ∧ hashStep h c < 2 ^ 31) ∧
    (∀ url b1 b2 : String, b1.take 256 = b2.take 256 →
      analysisSeed url b1 = analysisSeed url b2) := by
  refine ⟨?_, ?_, rfl, ?_, ?_⟩
  · intro s t h
    rw [h]
  · intro s
    unfold getSeedFromString
    split
    · exact le_refl 0
    · exact abs_nonneg _
  · intro h c
    exact toInt32_bounds _
  · intro url b1 b2 h
    unfold analysisSeed seedContent
    rw [h]

/-- Witness for C8: two base64 strings of 300 characters agreeing on their
first 256 characters yield the same analysis seed, and a concrete seed is
non-negative. -/
theorem getSeedFromString_spec_witness :
    (String.mk (List.replicate 300 'a')).take 256 =
      (String.mk (List.replicate 256 'a' ++ List.replicate 44 'b')).take 256 ∧
    analysisSeed "./public/challenges/challenge-1.png"
        (String.mk (List.replicate 300 'a')) =
      analysisSeed "./public/challenges/challenge-1.png"
        (String.mk (List.replicate 256 'a' ++ List.replicate 44 'b')) ∧
    0 ≤ getSeedFromString "challenge" := by
  have htake : (String.mk (List.replicate 300 'a')).take 256 =
      (String.mk (List.replicate 256 'a' ++ List.replicate 44 'b')).take 256 := by
    rw [String.take_eq, String.take_eq,
      List.take_append_of_le_length (List.length_replicate 256 'a').ge,
      List.take_replicate, List.take_replicate,
      show min 256 300 = 256 from rfl, show min 256 256 = 256 from rfl]
  exact ⟨htake,
    getSeedFromString_spec.2.2.2.2 _ _ _ htake,
    getSeedFromString_spec.2.1 "challenge"⟩

end AnalysisService

namespace TtsService

/-- Helper: the parameter scan never touches `numChannels`. -/
theorem foldl_applyParam_numChannels (params : List (List Char))
    (o : PartialWavOptions) :
    (params.foldl applyParam o).numChannels = o.numChannels := by
  induction params generalizing o with
  | nil => rfl
  | cons p ps ih =>
    rw [List.foldl_cons, ih]
    unfold applyParam
    repeat' split
    all_goals rfl

/-- Helper: scanning the parameters leaves the bits-per-sample of the last
'audio/L<n>' parameter that carries a number, else the accumulator's. -/
theorem foldl_applyParam_bits (params : List (List Char))
    (o : PartialWavOptions) :
    (params.foldl applyParam o).bitsPerSample =
      (params.reverse.filterMap
        (fun p => if startsWithChars p audioLChars then
                    parseIntBase10 (p.drop 7)
                  else Option.none)).headD o.bitsPerSample := by
  induction params generalizing o with
  | nil => rfl
  | cons p ps ih =>
    rw [List.foldl_cons, ih, List.reverse_cons, List.filterMap_append]
    rcases hA : ps.reverse.filterMap
        (fun p => if startsWithChars p audioLChars then
                    parseIntBase10 (p.drop 7)
                  else Option.none) with _ | ⟨b, rest⟩
    · simp only [hA, List.nil_append]
      by_cases hs : startsWithChars p audioLChars
      · rcases hp : parseIntBase10 (p.drop 7) with _ | bits
        · simp [applyParam, hs, hp, List.filterMap_cons]
        · simp [applyParam, hs, hp, List.filterMap_cons]
      · by_cases hr : startsWithChars p rateChars
        · rcases hp : parseIntBase10 (p.drop 5) with _ | r
          · simp [applyParam, hs, hr, hp, List.filterMap_cons]
          · simp [applyParam, hs, hr, hp, List.filterMap_cons]
        · simp [applyParam, hs, hr, List.filterMap_cons]
    · simp only [hA, List.cons_append, List.headD_cons]

/-- Helper: scanning the parameters leaves the sample rate of the last
'rate=<n>' parameter that carries a number, else the accumulator's. -/
theorem foldl_applyParam_rate (params : List (List Char))
    (o : PartialWavOptions) :
    (params.foldl applyParam o).sampleRate =
      ((params.reverse.filterMap rateOfParam).head?).or o.sampleRate := by
  induction params generalizing o with
  | nil => rfl
  | cons p ps ih =>
    rw [List.foldl_cons, ih, List.reverse_cons, List.filterMap_append,
      List.head?_append]
    rcases hA : (ps.reverse.filterMap rateOfParam).head? with _ | r0
    · simp only [hA, Option.none_or]
      by_cases hs : startsWithChars p audioLChars
      · rcases hp : parseIntBase10 (p.drop 7) with _ | bits
        · simp [applyParam, rateOfParam, hs, hp, List.filterMap_cons]
        · simp [applyParam, rateOfParam, hs, hp, List.filterMap_cons]
      · by_cases hr : startsWithChars p rateChars
        · rcases hp : parseIntBase10 (p.drop 5) with _ | r
          · simp [applyParam, rateOfParam, hs, hr, hp, List.filterMap_cons]
          · simp [applyParam, rateOfParam, hs, hr, hp, List.filterMap_cons]
        · simp [applyParam, rateOfParam, hs, hr, List.filterMap_cons]
    · simp only [hA, Option.or_some]

/-- Helper: full characterization of `parseMimeType` against the claimed
parameter readings (with the rate amendment). -/
theorem parseMimeType_spec (mimeType : String) :
    (parseMimeType mimeType).numChannels = 1 ∧
    (parseMimeType mimeType).bitsPerSample = specBits mimeType ∧
    (parseMimeType mimeType).sampleRate = specRate mimeType := by
  unfold parseMimeType specBits specRate
  refine ⟨?_, ?_, ?_⟩
  · exact foldl_applyParam_numChannels _ _
  · exact foldl_applyParam_bits _ _
  · dsimp only
    rw [foldl_applyParam_rate, Option.or_none]

/-- Helper: the two floor functions on rationals agree. -/
theorem rat_floor_eq_intFloor (q : Rat) : q.floor = ⌊q⌋ := by
  rw [Rat.floor_def' q, Rat.floor_def]

/-- Helper: truncation is the identity on integers. -/
theorem jsTrunc_intCast (m : Int) : jsTrunc ((m : Rat)) = m := by
  unfold jsTrunc
  by_cases hm : (m : Rat) < 0
  · rw [if_pos hm]
    have hcast : (-(m : Rat)) = ((-m : Int) : Rat) := by push_cast; ring
    rw [hcast, rat_floor_eq_intFloor, Int.floor_intCast, neg_neg]
  · rw [if_neg hm, rat_floor_eq_intFloor, Int.floor_intCast]

/-- Helper: the 32-bit store conversion is the identity on in-range
non-negative integers. -/
theorem toUint32_intCast (m : Int) (h0 : 0 ≤ m) (h : m < 2 ^ 32) :
    toUint32 ((m : Rat)) = m.toNat := by
  unfold toUint32
  rw [jsTrunc_intCast, Int.emod_eq_of_lt h0 h]

/-- Helper: the 32-bit store conversion lands below `2^32`. -/
theorem toUint32_lt (q : Rat) : toUint32 q < 2 ^ 32 := by
  unfold toUint32
  have h1 : (0 : Int) ≤ jsTrunc q % 2 ^ 32 := Int.emod_nonneg _ (by norm_num)
  have h2 : jsTrunc q % 2 ^ 32 < 2 ^ 32 := Int.emod_lt_of_pos _ (by norm_num)
  omega

/-- Helper: reading back the four little-endian bytes of an in-range value
recovers it. -/
theorem readU32_store (n : Nat) (h : n < 2 ^ 32) :
    n % 256 + 256 * (n / 256 % 256) + 256 ^ 2 * (n / 256 ^ 2 % 256) +
      256 ^ 3 * (n / 256 ^ 3 % 256) = n := by
  have h2 : (256 : Nat) ^ 2 = 65536 := by norm_num
  have h3 : (256 : Nat) ^ 3 = 16777216 := by norm_num
  have h32 : (2 : Nat) ^ 32 = 4294967296 := by norm_num
  rw [h2, h3]
  rw [h32] at h
  omega

set_option maxHeartbeats 1600000 in
/-- Helper: the stored RIFF chunk size field (offset 4). -/
theorem readU32_header_4 (len : Int) (o : WavConversionOptions) :
    readU32 (createWavHeader len o) 4 = toUint32 ((36 : Rat) + (len : Rat)) :=
  readU32_store _ (toUint32_lt _)

set_option maxHeartbeats 1600000 in
/-- Helper: the stored data chunk size field (offset 40). -/
theorem readU32_header_40 (len : Int) (o : WavConversionOptions) :
    readU32 (createWavHeader len o) 40 = toUint32 ((len : Rat)) :=
  readU32_store _ (toUint32_lt _)

set_option maxHeartbeats 1600000 in
/-- Helper: the stored byte-rate field (offset 28). -/
theorem readU32_header_28 (len : Int) (o : WavConversionOptions) :
    readU32 (createWavHeader len o) 28 =
      toUint32 ((o.sampleRate : Rat) * (o.numChannels : Rat) *
        ((o.bitsPerSample : Rat) / 8)) :=
  readU32_store _ (toUint32_lt _)

/-- Counterexample to C3 as stated: on the mime type "audio/L16;rate=0" the
rate parameter is present and carries 0, yet the header is built with
sample rate 24000 — the default also fires on a parsed 0, because 0 is
falsy in `!options.sampleRate`. -/
theorem parseMimeType_rate_zero_cex :
    (parseMimeType "audio/L16;rate=0").sampleRate = 24000 ∧
    specRateClaimed "audio/L16;rate=0" = 0 ∧
    (parseMimeType "audio/L16;rate=0").sampleRate ≠
      specRateClaimed "audio/L16;rate=0" := by
  refine ⟨by decide, by decide, by decide⟩

/-- C3 amended: `convertToWav` produces exactly the 44-byte header followed
by the concatenation of the decoded chunks; the header stores (32-bit,
wrapped) `36 + dataLength` at offset 4 and `dataLength` at offset 40 —
verbatim for in-range lengths — and `sampleRate * numChannels *
bitsPerSample / 8` at offset 28; the parameters come from the mime type
with `numChannels` always 1, `bitsPerSample` from the last numeric
'audio/L<n>' parameter (default 16), and `sampleRate` from the last numeric
'rate=<n>' parameter, defaulting to 24000 when absent or when the parsed
rate is 0. -/
theorem convertToWav_spec (decode : String → List Nat) (rawData : List String)
    (mimeType : String) :
    convertToWav decode rawData mimeType =
      createWavHeader ((((rawData.map decode).map List.length).sum : Nat) : Int)
        (parseMimeType mimeType) ++ (rawData.map decode).flatten ∧
    (createWavHeader ((((rawData.map decode).map List.length).sum : Nat) : Int)
      (parseMimeType mimeType)).length = 44 ∧
    readU32 (createWavHeader ((((rawData.map decode).map List.length).sum : Nat) : Int)
        (parseMimeType mimeType)) 4 =
      toUint32 ((36 : Rat) + (((((rawData.map decode).map List.length).sum : Nat) : Int) : Rat)) ∧
    (((((rawData.map decode).map List.length).sum : Nat) : Int) + 36 < 2 ^ 32 →
      readU32 (createWavHeader ((((rawData.map decode).map List.length).sum : Nat) : Int)
          (parseMimeType mimeType)) 4 =
        ((rawData.map decode).map List.length).sum + 36) ∧
    readU32 (createWavHeader ((((rawData.map decode).map List.length).sum : Nat) : Int)
        (parseMimeType mimeType)) 40 =
      toUint32 (((((rawData.map decode).map List.length).sum : Nat) : Int) : Rat) ∧
    (((((rawData.map decode).map List.length).sum : Nat) : Int) < 2 ^ 32 →
      readU32 (createWavHeader ((((rawData.map decode).map List.length).sum : Nat) : Int)
          (parseMimeType mimeType)) 40 =
        ((rawData.map decode).map List.length).sum) ∧
    readU32 (createWavHeader ((((rawData.map decode).map List.length).sum : Nat) : Int)
        (parseMimeType mimeType)) 28 =
      toUint32 (((parseMimeType mimeType).sampleRate : Rat) *
        ((parseMimeType mimeType).numChannels : Rat) *
        (((parseMimeType mimeType).bitsPerSample : Rat) / 8)) ∧
    (parseMimeType mimeType).numChannels = 1 ∧
    (parseMimeType mimeType).bitsPerSample = specBits mimeType ∧
    (parseMimeType mimeType).sampleRate = specRate mimeType := by
  refine ⟨rfl, rfl, readU32_header_4 _ _, ?_, readU32_header_40 _ _, ?_,
    readU32_header_28 _ _, (parseMimeType_spec mimeType).1,
    (parseMimeType_spec mimeType).2.1, (parseMimeType_spec mimeType).2.2⟩
  · intro hlt
    rw [readU32_header_4]
    have hcast : (36 : Rat) + (((((rawData.map decode).map List.length).sum : Nat) : Int) : Rat) =
        (((((rawData.map decode).map List.length).sum : Nat) : Int) + 36 : Int) := by
      push_cast
      ring
    rw [hcast, toUint32_intCast _ (by positivity) hlt]
    omega
  · intro hlt
    rw [readU32_header_40, toUint32_intCast _ (by positivity) hlt]
    omega

/-- Witness for the amended C3 on concrete data: two chunks of two bytes
each under "audio/L16;rate=24000" give a 48-byte blob whose header stores
40 at offset 4, 4 at offset 40, and byte rate 48000 at offset 28. -/
theorem convertToWav_spec_witness :
    convertToWav (fun _ => [7, 8]) ["x", "y"] "audio/L16;rate=24000" =
      createWavHeader 4 (parseMimeType "audio/L16;rate=24000") ++ [7, 8, 7, 8] ∧
    readU32 (createWavHeader 4 (parseMimeType "audio/L16;rate=24000")) 4 = 40 ∧
    readU32 (createWavHeader 4 (parseMimeType "audio/L16;rate=24000")) 40 = 4 ∧
    (parseMimeType "audio/L16;rate=24000").sampleRate = 24000 ∧
    (parseMimeType "audio/L16;rate=24000").bitsPerSample = 16 := by
  have h := convertToWav_spec (fun _ => [7, 8]) ["x", "y"] "audio/L16;rate=24000"
  refine ⟨h.1, ?_, ?_, ?_, ?_⟩
  · exact h.2.2.2.1 (by decide)
  · exact h.2.2.2.2.2.1 (by decide)
  · rw [h.2.2.2.2.2.2.2.2.2]
    decide
  · rw [h.2.2.2.2.2.2.2.2.1]
    decide

end TtsService

namespace ApiService

/-- The feedback extraction succeeds exactly when every item is a string. -/
theorem extractStrings_isSome_iff (items : List Json) :
    (∃ fb, extractStrings items = some fb) ↔
      ∀ x ∈ items, ∃ s, x = Json.str s := by
  induction items with
  | nil => simp [extractStrings]
  | cons x rest ih =>
    cases x with
    | str s =>
      simp only [extractStrings, Option.map_eq_some']
      constructor
      · rintro ⟨fb, a, ha, hfb⟩
        intro x hx
        rcases List.mem_cons.mp hx with rfl | hx2
        · exact ⟨s, rfl⟩
        · exact ih.mp ⟨a, ha⟩ x hx2
      · intro h
        obtain ⟨a, ha⟩ := ih.mpr fun x hx => h x (List.mem_cons_of_mem _ hx)
        exact ⟨s :: a, a, ha, rfl⟩
    | null => simp [extractStrings]
    | bool b => simp [extractStrings]
    | num q => simp [extractStrings]
    | arr l => simp [extractStrings]
    | obj f => simp [extractStrings]

/-- The shape validation succeeds exactly on a numeric `similarityScore`
together with a `feedback` array of strings. -/
theorem validateAnalysis_isSome_iff (j : Json) :
    (∃ r, validateAnalysis j = some r) ↔
      ((∃ q, j.getField "similarityScore" = some (Json.num q)) ∧
       (∃ items, j.getField "feedback" = some (Json.arr items) ∧
        ∀ x ∈ items, ∃ s, x = Json.str s)) := by
  unfold validateAnalysis
  rcases hs : j.getField "similarityScore" with _ | v
  · simp [hs]
  · cases v with
    | num q =>
      rcases hf : j.getField "feedback" with _ | w
      · simp [hs, hf]
      · cases w with
        | arr items =>
          rcases he : extractStrings items with _ | fb
          · have hnot : ¬ ∀ x ∈ items, ∃ s, x = Json.str s := fun hall => by
              obtain ⟨fb, hfb⟩ := (extractStrings_isSome_iff items).mpr hall
              rw [he] at hfb
              exact Option.noConfusion hfb
            simp [hs, hf, he, hnot]
          · have hall : ∀ x ∈ items, ∃ s, x = Json.str s :=
              (extractStrings_isSome_iff items).mp ⟨fb, he⟩
            simp only [hs, hf, he]
            simp
            exact hall
        | null => simp [hs, hf]
        | bool b => simp [hs, hf]
        | num q2 => simp [hs, hf]
        | str s => simp [hs, hf]
        | obj f => simp [hs, hf]
    | null => simp [hs]
    | bool b => simp [hs]
    | str s => simp [hs]
    | arr l => simp [hs]
    | obj f => simp [hs]

/-- C4: `analyzeImages` rejects any API error with the fixed message,
returns a result exactly when the parsed JSON has a numeric
`similarityScore` and a `feedback` array of strings, and in every
non-returning case the rejection message is exactly the fixed one. -/
theorem analyzeImages_spec :
    analyzeImages ApiOutcome.apiError = Except.error analysisFailureMsg ∧
    (∀ j, (∃ r, analyzeImages (ApiOutcome.json j) = Except.ok r) ↔
      ((∃ q, j.getField "similarityScore" = some (Json.num q)) ∧
       (∃ items, j.getField "feedback" = some (Json.arr items) ∧
        ∀ x ∈ items, ∃ s, x = Json.str s))) ∧
    (∀ o, (¬ ∃ r, analyzeImages o = Except.ok r) →
      analyzeImages o = Except.error analysisFailureMsg) := by
  refine ⟨rfl, ?_, ?_⟩
  · intro j
    rw [← validateAnalysis_isSome_iff]
    rcases hv : validateAnalysis j with _ | r
    · simp [analyzeImages, hv]
    · simp [analyzeImages, hv]
  · intro o h
    cases o with
    | apiError => rfl
    | json j =>
      rcases hv : validateAnalysis j with _ | r
      · simp [analyzeImages, hv]
      · exact absurd ⟨r, by simp [analyzeImages, hv]⟩ h

/-- Witness for C4: a well-shaped response parses to a result; a bare
string response is rejected with the fixed message. -/
theorem analyzeImages_spec_witness :
    (∃ r, analyzeImages (ApiOutcome.json (Json.obj
      [("similarityScore", Json.num 92),
       ("feedback", Json.arr [Json.str "Nice match"])])) = Except.ok r) ∧
    analyzeImages (ApiOutcome.json (Json.str "oops")) =
      Except.error analysisFailureMsg := by
  constructor
  · exact (analyzeImages_spec.2.1 _).mpr
      ⟨⟨92, rfl⟩, ⟨[Json.str "Nice match"], rfl, by simp⟩⟩
  · exact analyzeImages_spec.2.2 _
      (by rintro ⟨r, hr⟩; exact Except.noConfusion hr)

/-- C7: with the pollinations service, `generateImage` resolves with the
base64 encoding of the response body exactly when the response is ok, and
rejects with the generic failure message when the response is not ok or the
fetch rejects; a service that is neither pollinations nor gemini is
rejected with the unknown-service message. -/
theorem generateImage_spec :
    (∀ st body g, generateImage "pollinations" (FetchOutcome.response true st body) g =
      Except.ok (base64Encode body)) ∧
    (∀ st body g, generateImage "pollinations" (FetchOutcome.response false st body) g =
      Except.error "Failed to generate image. Please check your prompt or internet connection.") ∧
    (∀ g, generateImage "pollinations" FetchOutcome.networkError g =
      Except.error "Failed to generate image. Please check your prompt or internet connection.") ∧
    (∀ service f g, service ≠ "pollinations" → service ≠ "gemini" →
      generateImage service f g = Except.error "Unknown image service selected") := by
  refine ⟨fun st body g => rfl, fun st body g => rfl, fun g => rfl, ?_⟩
  intro service f g h1 h2
  unfold generateImage
  rw [if_neg h1, if_neg h2]

/-- Witness for C7: a successful fetch of bytes 1, 2, 255 resolves with
their base64 encoding, and an unknown service name is rejected. -/
theorem generateImage_spec_witness :
    generateImage "pollinations" (FetchOutcome.response true "OK" [1, 2, 255])
      (Except.error ()) = Except.ok "AQL/" ∧
    generateImage "dalle" (FetchOutcome.response true "OK" [])
      (Except.error ()) = Except.error "Unknown image service selected" := by
  constructor
  · have h := generateImage_spec.1 "OK" [1, 2, 255] (Except.error ())
    rw [show base64Encode [1, 2, 255] = "AQL/" from rfl] at h
    exact h
  · exact generateImage_spec.2.2.2 "dalle" _ _ (by decide) (by decide)

end ApiService

end PEC
